import Mathlib

/-!
Shallow embedding of `swift/ABI/Task.h` (the concurrency ABI: schedulable
jobs, asynchronous tasks, and the packed `ActiveTaskStatus` word), together
with theorems checking the specification against it.

Pointers are modelled as natural numbers with `0` playing the role of
`nullptr`; the machine word (`uintptr_t`) is a natural number together with
an explicit bit width `w` wherever masking against the word width matters.
-/

namespace SwiftABI

/-- Embeds `struct ExecutorRef`: a (possibly null) pointer to an executor. -/
structure ExecutorRef where
  Pointer : Nat
deriving DecidableEq, Repr

/-- Embeds `ExecutorRef::noPreference()`: the null executor reference. -/
def ExecutorRef.noPreference : ExecutorRef := ⟨0⟩

/-- Modelled from the spec: `JobFlags` is defined in `MetadataValues.h`,
which is not part of this source tree. The spec describes the flags as
holding an "is task" bit, an "is child task" flag and an "is future" flag;
we model the flag set as a record of those bits, with the accessor names
used by `Task.h` (`isAsyncTask`, `task_isChildTask`, `task_isFuture`). -/
structure JobFlags where
  isAsyncTask : Bool
  task_isChildTask : Bool
  task_isFuture : Bool
deriving DecidableEq, Repr

/-- Embeds `class Job`. The C++ `union { RunJob; ResumeTask }` is a single
pointer-sized slot holding one code pointer, modelled as `invokeSlot`; the
two union members are the two readings of that slot. The scheduler-private
slots are opaque to the job itself. -/
structure Job where
  SchedulerPrivate : Nat × Nat
  Flags : JobFlags
  invokeSlot : Nat
deriving DecidableEq, Repr

/-- Reads the union slot as the plain-job invoke function (`RunJob` member,
a `JobInvokeFunction *`). -/
def Job.RunJob (j : Job) : Nat := j.invokeSlot

/-- Reads the union slot as the task resume function (`ResumeTask` member,
a `TaskContinuationFunction *`). -/
def Job.ResumeTask (j : Job) : Nat := j.invokeSlot

/-- Embeds `Job::isAsyncTask()`, which returns `Flags.isAsyncTask()`. -/
def Job.isAsyncTask (j : Job) : Bool := j.Flags.isAsyncTask

/-- Embeds the constructor `Job(JobFlags, JobInvokeFunction *)`, which runs
`assert(!isAsyncTask())`; a failed assertion (a fatal error, not a value)
is modelled as `none`. The scheduler-private slots are not initialized by
the constructor, so their contents are a parameter. -/
def Job.mkInvoke (flags : JobFlags) (invoke : Nat) (schedPriv : Nat × Nat) :
    Option Job :=
  let j : Job := ⟨schedPriv, flags, invoke⟩
  if j.isAsyncTask then none else some j

/-- Embeds the constructor `Job(JobFlags, TaskContinuationFunction *)`,
which runs `assert(isAsyncTask())`. -/
def Job.mkResume (flags : JobFlags) (invoke : Nat) (schedPriv : Nat × Nat) :
    Option Job :=
  let j : Job := ⟨schedPriv, flags, invoke⟩
  if j.isAsyncTask then some j else none

/-- Embeds `class ActiveTaskStatus`: one `uintptr_t` word `Value`. -/
structure ActiveTaskStatus where
  Value : Nat
deriving DecidableEq, Repr

namespace ActiveTaskStatus

/-- Embeds the enumerator `IsCancelled = 0x1`. -/
def IsCancelled : Nat := 0x1

/-- Embeds the enumerator `IsLocked = 0x2`. -/
def IsLocked : Nat := 0x2

/-- Embeds the enumerator `RecordMask = ~uintptr_t(IsCancelled | IsLocked)`:
the complement of the two flag bits within a `w`-bit word, i.e.
`(2 ^ w - 1) - (IsCancelled ||| IsLocked)`. -/
def RecordMask (w : Nat) : Nat := 2 ^ w - 1 - (IsCancelled ||| IsLocked)

/-- Embeds the default constructor `ActiveTaskStatus() : Value(0)`. -/
def mk0 : ActiveTaskStatus := ⟨0⟩

/-- Embeds the packing constructor
`ActiveTaskStatus(TaskStatusRecord *innermostRecord, bool cancelled, bool
locked)`, whose word is `innermostRecord + (locked ? IsLocked : 0) +
(cancelled ? IsCancelled : 0)`. -/
def pack (innermostRecord : Nat) (cancelled locked : Bool) : ActiveTaskStatus :=
  ⟨innermostRecord + (if locked then IsLocked else 0)
    + (if cancelled then IsCancelled else 0)⟩

/-- Embeds `ActiveTaskStatus::isCancelled()`: `Value & IsCancelled`,
converted to `bool` (nonzero test). -/
def isCancelled (s : ActiveTaskStatus) : Bool := s.Value &&& IsCancelled != 0

/-- Embeds `ActiveTaskStatus::isLocked()`: `Value & IsLocked`, converted to
`bool` (nonzero test). -/
def isLocked (s : ActiveTaskStatus) : Bool := s.Value &&& IsLocked != 0

/-- Embeds `ActiveTaskStatus::getInnermostRecord()`:
`(TaskStatusRecord *)(Value & RecordMask)`. -/
def getInnermostRecord (w : Nat) (s : ActiveTaskStatus) : Nat :=
  s.Value &&& RecordMask w

/-- Embeds the iteration performed by `record_iterator`
(`LinkedListIterator<TaskStatusRecord, getStatusRecordParent>`): starting
from `cur`, emit each non-null record and step to its parent until null.
`getStatusRecordParent` is only declared in `Task.h` (its definition reads
the record's parent field elsewhere), so the parent map is a parameter.
The iteration is given explicit fuel; `none` means the chain was not
exhausted within the fuel. -/
def recordsFrom (parent : Nat → Nat) : Nat → Nat → Option (List Nat)
  | cur, 0 => if cur = 0 then some [] else none
  | cur, fuel + 1 =>
      if cur = 0 then some []
      else (recordsFrom parent (parent cur) fuel).map (cur :: ·)

/-- Embeds `ActiveTaskStatus::records()`:
`record_iterator::rangeBeginning(getInnermostRecord())`, i.e. the record
chain starting at the innermost record. -/
def records (w : Nat) (parent : Nat → Nat) (s : ActiveTaskStatus)
    (fuel : Nat) : Option (List Nat) :=
  recordsFrom parent (getInnermostRecord w s) fuel

end ActiveTaskStatus

/-- Embeds `class AsyncTask : public HeapObject, public Job`. The
`HeapObject` base (defined outside this source tree) contributes the
metadata pointer passed to its constructor; its reference-count word is
opaque and omitted from the behavioural model (it appears in the layout
model below). `Status` is `std::atomic<ActiveTaskStatus>`; the structure
holds the current value of that atomic word. -/
structure AsyncTask where
  heapMetadata : Nat
  job : Job
  ResumeContext : Nat
  Status : ActiveTaskStatus
  AllocatorPrivate : Nat × Nat × Nat × Nat
deriving DecidableEq, Repr

/-- Embeds `AsyncTask::hasChildFragment()`: `Flags.task_isChildTask()`. -/
def AsyncTask.hasChildFragment (t : AsyncTask) : Bool :=
  t.job.Flags.task_isChildTask

/-- Embeds `AsyncTask::isFuture()`: `Flags.task_isFuture()`. -/
def AsyncTask.isFuture (t : AsyncTask) : Bool := t.job.Flags.task_isFuture

/-- Embeds `AsyncTask::isCancelled()`:
`Status.load(std::memory_order_relaxed).isCancelled()` — a single relaxed
load of the atomic status word followed by reading the cancelled bit of
the loaded snapshot; the function is `const` and has no side effect. -/
def AsyncTask.isCancelled (t : AsyncTask) : Bool := t.Status.isCancelled

/-- Embeds the constructor `AsyncTask(const HeapMetadata *, JobFlags,
TaskContinuationFunction *, AsyncContext *)`. It constructs the `Job` base
through `Job(flags, run)` (the `TaskContinuationFunction *` overload, whose
assertion may fire), initializes `ResumeContext` with the initial context
and `Status` with `ActiveTaskStatus()`, and then runs
`assert(flags.isAsyncTask())`. `AllocatorPrivate` is uninitialized by the
constructor, so its contents are a parameter. -/
def AsyncTask.construct (metadata : Nat) (flags : JobFlags) (run : Nat)
    (initialContext : Nat) (schedPriv : Nat × Nat)
    (allocPriv : Nat × Nat × Nat × Nat) : Option AsyncTask :=
  (Job.mkResume flags run schedPriv).bind fun j =>
    if flags.isAsyncTask then
      some ⟨metadata, j, initialContext, ActiveTaskStatus.mk0, allocPriv⟩
    else none

/-- Observable outcome of `Job::run` / `AsyncTask::run`: either the plain
invocation path `RunJob(this, currentExecutor)` was called, or the task
path `ResumeTask(this, currentExecutor, ResumeContext)` was. Each event
records the code pointer invoked and the arguments passed. -/
inductive RunEvent where
  | ranJob (fn : Nat) (self : Job) (currentExecutor : ExecutorRef)
  | resumedTask (fn : Nat) (self : AsyncTask) (currentExecutor : ExecutorRef)
      (resumeContext : Nat)
deriving DecidableEq, Repr

/-- Embeds `AsyncTask::run(ExecutorRef)`:
`ResumeTask(this, currentExecutor, ResumeContext)`. -/
def AsyncTask.run (t : AsyncTask) (currentExecutor : ExecutorRef) : RunEvent :=
  .resumedTask t.job.ResumeTask t currentExecutor t.ResumeContext

/-- An object on which `Job::run` can be called: its dynamic type is either
a plain `Job` or an `AsyncTask` (whose first `Job`-shaped part is the `Job`
base subobject). -/
inductive JobObject where
  | plainJob (j : Job)
  | asyncTask (t : AsyncTask)
deriving DecidableEq, Repr

/-- The `Job` header of the object (`this` viewed as a `Job *`). -/
def JobObject.header : JobObject → Job
  | .plainJob j => j
  | .asyncTask t => t.job

/-- The object viewed as an `AsyncTask`, when its dynamic type is one. -/
def JobObject.asTask : JobObject → Option AsyncTask
  | .plainJob _ => none
  | .asyncTask t => some t

/-- Embeds `Job::run(ExecutorRef)`:
`if (auto task = dyn_cast<AsyncTask>(this)) task->run(currentExecutor);
else RunJob(this, currentExecutor);`. `dyn_cast` tests
`AsyncTask::classof`, i.e. `isAsyncTask()`. If the flag claims the object
is a task but its dynamic type is a plain `Job`, the `dyn_cast` result is
a misaligned reinterpretation and the behaviour is undefined, modelled as
`none`. -/
def JobObject.run (o : JobObject) (currentExecutor : ExecutorRef) :
    Option RunEvent :=
  if (o.header).isAsyncTask then
    (o.asTask).map fun task => task.run currentExecutor
  else
    some (.ranJob (o.header).RunJob o.header currentExecutor)

/-! ### Layout model

Record layout computed by the standard (Itanium-style) rules the target
compilers use for these standard-layout-like classes: base subobjects then
members, each placed at its alignment, the total size rounded up to the
struct alignment. Sizes and alignments are in bytes; `w` is
`sizeof(void *)` (equal to `alignof(void *)` and to `sizeof(uintptr_t)` on
the target platforms). -/

/-- Size and alignment of one base subobject or member. -/
structure CppField where
  size : Nat
  align : Nat
deriving DecidableEq, Repr

/-- Rounds `n` up to the next multiple of `a` (for `a > 0`). -/
def alignUp (n a : Nat) : Nat := (n + a - 1) / a * a

/-- Places the fields in order, returning the end offset of the last. -/
def layoutEnd : List CppField → Nat → Nat
  | [], off => off
  | f :: fs, off => layoutEnd fs (alignUp off f.align + f.size)

/-- Alignment of the record: maximum of the `alignas` minimum and every
field's alignment. -/
def structAlign (fields : List CppField) (alignasMin : Nat) : Nat :=
  fields.foldr (fun f a => max f.align a) alignasMin

/-- Size of the record: the end offset rounded up to the alignment. -/
def structSize (fields : List CppField) (alignasMin : Nat) : Nat :=
  alignUp (layoutEnd fields 0) (structAlign fields alignasMin)

/-- Fields of `Job` for pointer width `w`: `void *SchedulerPrivate[2]`,
`JobFlags Flags` and the union of two function pointers. Modelled from the
spec for the external part: `JobFlags` (from `MetadataValues.h`) is a flag
set over one pointer-sized word. -/
def jobFields (w : Nat) : List CppField := [⟨2 * w, w⟩, ⟨w, w⟩, ⟨w, w⟩]

/-- Embeds `sizeof(Job)`; `Job` is declared `alignas(2 * alignof(void *))`. -/
def sizeofJob (w : Nat) : Nat := structSize (jobFields w) (2 * w)

/-- Embeds `alignof(Job)`. -/
def alignofJob (w : Nat) : Nat := structAlign (jobFields w) (2 * w)

/-- Embeds `sizeof(ActiveTaskStatus)`: a single `uintptr_t` member. -/
def sizeofActiveTaskStatus (w : Nat) : Nat := structSize [⟨w, w⟩] 1

/-- Base subobjects and fields of `AsyncTask` for pointer width `w`:
bases `HeapObject` and `Job`, then `AsyncContext *ResumeContext`,
`std::atomic<ActiveTaskStatus> Status` and `void *AllocatorPrivate[4]`.
Modelled from the spec for the external parts: `HeapObject` (defined
outside this source tree) is the metadata pointer plus the pointer-sized
reference-count word, and the lock-free `std::atomic` wrapper adds no
padding over `ActiveTaskStatus` itself. -/
def asyncTaskFields (w : Nat) : List CppField :=
  [⟨2 * w, w⟩, ⟨sizeofJob w, alignofJob w⟩, ⟨w, w⟩,
   ⟨sizeofActiveTaskStatus w, w⟩, ⟨4 * w, w⟩]

/-- Embeds `sizeof(AsyncTask)` (no `alignas` of its own). -/
def sizeofAsyncTask (w : Nat) : Nat := structSize (asyncTaskFields w) 1

/-- Embeds `alignof(AsyncTask)`. -/
def alignofAsyncTask (w : Nat) : Nat := structAlign (asyncTaskFields w) 1

/-- Embeds `AsyncTask::childFragment()`: `assert(hasChildFragment())`
(modelled as `none` when it fires) and then
`reinterpret_cast<ChildFragment *>(this + 1)`, the address one whole
`AsyncTask` past `this`. -/
def AsyncTask.childFragment (w : Nat) (t : AsyncTask) (thisAddr : Nat) :
    Option Nat :=
  if t.hasChildFragment then some (thisAddr + sizeofAsyncTask w) else none

/-! ### Lock / cancellation protocol on the atomic status word

`AsyncTask::Status` is declared in `Task.h`, but the code that mutates it
(`swift_taskCancel` and the record-locking paths) lives outside this source
tree, so the protocol is modelled from the spec. -/

/-- Modelled from the spec: every mutation of the status word is a single
atomic compare-and-swap of the whole packed word; returns the new memory
value and whether the swap succeeded. -/
def casWord (current expected desired : Nat) : Nat × Bool :=
  if current = expected then (desired, true) else (current, false)

/-- Modelled from the spec: the unlocked-cancellation CAS path sets the
cancelled bit and preserves the rest of the word; its committed (successful
CAS) transition on the current word is `v ↦ v ||| IsCancelled`. -/
def cancelCommit (v : Nat) : Nat := v ||| ActiveTaskStatus.IsCancelled

/-- Modelled from the spec: releasing the lock is a compare-and-swap
clearing the lock bit while preserving every other bit of the word read at
commit time; the committed transition is `v ↦ v &&& ~IsLocked`, the
complement taken within the `w`-bit word. -/
def unlockCommit (w : Nat) (v : Nat) : Nat :=
  v &&& (2 ^ w - 1 - ActiveTaskStatus.IsLocked)

/-! ### Bit-level helper lemmas -/

theorem land_two_eq (x : Nat) : x &&& 2 = 2 * (x / 2 % 2) := by
  have hd : (x &&& 2) / 2 = x / 2 % 2 := by
    rw [Nat.and_div_two]
    simp
  have hm : (x &&& 2) % 2 = 0 := by
    by_contra h
    have h2 : x % 2 = 1 ∧ 2 % 2 = 1 := Nat.and_mod_two_eq_one.mp (by omega)
    omega
  omega

theorem lor_one_eq (x : Nat) : x ||| 1 = 2 * (x / 2) + 1 := by
  have hd : (x ||| 1) / 2 = x / 2 := by
    rw [Nat.or_div_two]
    simp
  have hm : (x ||| 1) % 2 = 1 := Nat.or_mod_two_eq_one.mpr (Or.inr rfl)
  omega

theorem land_four_mul (x m : Nat) : x &&& (4 * m) = 4 * (x / 4 &&& m) := by
  have h1 : (x &&& (4 * m)) % 2 = 0 := by
    by_contra h
    have h2 : x % 2 = 1 ∧ (4 * m) % 2 = 1 :=
      Nat.and_mod_two_eq_one.mp (by omega)
    omega
  have h2 : (x &&& (4 * m)) / 2 = x / 2 &&& (2 * m) := by
    rw [Nat.and_div_two]
    congr 1
    omega
  have h3 : (x / 2 &&& (2 * m)) % 2 = 0 := by
    by_contra h
    have h4 : x / 2 % 2 = 1 ∧ (2 * m) % 2 = 1 :=
      Nat.and_mod_two_eq_one.mp (by omega)
    omega
  have h4 : (x / 2 &&& (2 * m)) / 2 = x / 4 &&& m := by
    rw [Nat.and_div_two]
    congr 1 <;> omega
  omega

theorem two_pow_eq_four_mul (w : Nat) (hw : 2 ≤ w) :
    (2 : Nat) ^ w = 4 * 2 ^ (w - 2) := by
  have h : w = 2 + (w - 2) := by omega
  conv_lhs => rw [h]
  rw [pow_add]
  norm_num

theorem land_recordMask_eq (w x : Nat) (hw : 2 ≤ w) (hx : x < 2 ^ w) :
    x &&& (2 ^ w - 4) = 4 * (x / 4) := by
  have hpow := two_pow_eq_four_mul w hw
  have hmask : (2 : Nat) ^ w - 4 = 4 * (2 ^ (w - 2) - 1) := by omega
  rw [hmask, land_four_mul]
  have hx4 : x / 4 < 2 ^ (w - 2) := by omega
  rw [Nat.and_pow_two_sub_one_eq_mod, Nat.mod_eq_of_lt hx4]

theorem RecordMask_eq (w : Nat) :
    ActiveTaskStatus.RecordMask w = 2 ^ w - 4 := by
  unfold ActiveTaskStatus.RecordMask
  have h : (ActiveTaskStatus.IsCancelled ||| ActiveTaskStatus.IsLocked) = 3 :=
    rfl
  rw [h]
  omega

theorem pack_value_eq (ptr : Nat) (c l : Bool) :
    (ActiveTaskStatus.pack ptr c l).Value
      = ptr + (if l then 2 else 0) + (if c then 1 else 0) := rfl

theorem pack_value_lt (w ptr : Nat) (c l : Bool) (hw : 2 ≤ w)
    (halign : ptr % 4 = 0) (hlt : ptr < 2 ^ w) :
    (ActiveTaskStatus.pack ptr c l).Value < 2 ^ w := by
  have hpow := two_pow_eq_four_mul w hw
  rw [pack_value_eq]
  cases c <;> cases l <;> simp <;> omega

/-! ### Layout computations -/

theorem alignUp_mul (k a : Nat) (ha : 0 < a) : alignUp (k * a) a = k * a := by
  unfold alignUp
  have h1 : k * a + a - 1 = (a - 1) + a * k := by
    rw [Nat.mul_comm]
    omega
  rw [h1, Nat.add_mul_div_left _ _ ha, Nat.div_eq_of_lt (by omega)]
  simp

theorem alignUp_zero (a : Nat) (ha : 0 < a) : alignUp 0 a = 0 := by
  simpa using alignUp_mul 0 a ha

theorem layoutEnd_jobFields (w : Nat) (hw : 0 < w) :
    layoutEnd (jobFields w) 0 = 4 * w := by
  show alignUp (alignUp (alignUp 0 w + 2 * w) w + w) w + w = 4 * w
  rw [alignUp_zero w hw, Nat.zero_add, alignUp_mul 2 w hw,
    show 2 * w + w = 3 * w from by omega, alignUp_mul 3 w hw]
  omega

theorem alignofJob_eq (w : Nat) (hw : 0 < w) : alignofJob w = 2 * w := by
  show max w (max w (max w (2 * w))) = 2 * w
  omega

theorem sizeofJob_eq (w : Nat) (hw : 0 < w) : sizeofJob w = 4 * w := by
  unfold sizeofJob structSize
  rw [layoutEnd_jobFields w hw,
    show structAlign (jobFields w) (2 * w) = 2 * w from alignofJob_eq w hw]
  have h := alignUp_mul 2 (2 * w) (by omega)
  rw [show 2 * (2 * w) = 4 * w from by ring] at h
  exact h

theorem sizeofActiveTaskStatus_eq (w : Nat) (hw : 0 < w) :
    sizeofActiveTaskStatus w = w := by
  show alignUp (alignUp 0 w + w) (max w 1) = w
  rw [alignUp_zero w hw, Nat.zero_add, show max w 1 = w from by omega]
  simpa using alignUp_mul 1 w hw

theorem layoutEnd_asyncTaskFields (w : Nat) (hw : 0 < w) :
    layoutEnd (asyncTaskFields w) 0 = 12 * w := by
  show alignUp
      (alignUp
        (alignUp
          (alignUp (alignUp 0 w + 2 * w) (alignofJob w) + sizeofJob w)
          w + w)
        w + sizeofActiveTaskStatus w)
      w + 4 * w = 12 * w
  rw [alignUp_zero w hw, Nat.zero_add, alignofJob_eq w hw, sizeofJob_eq w hw,
    sizeofActiveTaskStatus_eq w hw,
    show alignUp (2 * w) (2 * w) = 2 * w from by
      simpa using alignUp_mul 1 (2 * w) (by omega),
    show 2 * w + 4 * w = 6 * w from by omega, alignUp_mul 6 w hw,
    show 6 * w + w = 7 * w from by omega, alignUp_mul 7 w hw,
    show 7 * w + w = 8 * w from by omega, alignUp_mul 8 w hw]
  omega

theorem alignofAsyncTask_eq (w : Nat) (hw : 0 < w) :
    alignofAsyncTask w = 2 * w := by
  show max w (max (alignofJob w) (max w (max w (max w 1)))) = 2 * w
  rw [alignofJob_eq w hw]
  omega

theorem sizeofAsyncTask_eq (w : Nat) (hw : 0 < w) :
    sizeofAsyncTask w = 12 * w := by
  unfold sizeofAsyncTask structSize
  rw [layoutEnd_asyncTaskFields w hw,
    show structAlign (asyncTaskFields w) 1 = 2 * w from
      alignofAsyncTask_eq w hw]
  have h := alignUp_mul 6 (2 * w) (by omega)
  rw [show 6 * (2 * w) = 12 * w from by ring] at h
  exact h

/-! ### Theorems for the claims -/

/-- Claim C2: for every triple (recordPointer, cancelled, locked) where the
two lowest bits of recordPointer are zero (and the pointer fits in the
`w`-bit word), constructing an `ActiveTaskStatus` from the triple and
reading it back through `getInnermostRecord()`, `isCancelled()` and
`isLocked()` yields exactly the original triple. -/
theorem pack_unpack_roundtrip (w ptr : Nat) (c l : Bool) (hw : 2 ≤ w)
    (halign : ptr % 4 = 0) (hlt : ptr < 2 ^ w) :
    (ActiveTaskStatus.pack ptr c l).getInnermostRecord w = ptr
      ∧ (ActiveTaskStatus.pack ptr c l).isCancelled = c
      ∧ (ActiveTaskStatus.pack ptr c l).isLocked = l := by
  have hpow := two_pow_eq_four_mul w hw
  refine ⟨?_, ?_, ?_⟩
  · show (ActiveTaskStatus.pack ptr c l).Value
        &&& ActiveTaskStatus.RecordMask w = ptr
    rw [RecordMask_eq,
      land_recordMask_eq w _ hw (pack_value_lt w ptr c l hw halign hlt),
      pack_value_eq]
    cases c <;> cases l <;> simp <;> omega
  · show ((ActiveTaskStatus.pack ptr c l).Value
        &&& ActiveTaskStatus.IsCancelled != 0) = c
    rw [pack_value_eq]
    cases c <;> cases l <;>
      simp [ActiveTaskStatus.IsCancelled, Nat.and_one_is_mod] <;> omega
  · show ((ActiveTaskStatus.pack ptr c l).Value
        &&& ActiveTaskStatus.IsLocked != 0) = l
    rw [pack_value_eq]
    cases c <;> cases l <;>
      simp [ActiveTaskStatus.IsLocked, land_two_eq] <;> omega

/-- Witness for `pack_unpack_roundtrip` at w = 64, ptr = 0x1000,
cancelled = true, locked = false. -/
theorem pack_unpack_roundtrip_witness :
    (ActiveTaskStatus.pack 0x1000 true false).getInnermostRecord 64 = 0x1000
      ∧ (ActiveTaskStatus.pack 0x1000 true false).isCancelled = true
      ∧ (ActiveTaskStatus.pack 0x1000 true false).isLocked = false :=
  pack_unpack_roundtrip 64 0x1000 true false (by decide) (by decide)
    (by decide)

/-- Claim C5: in the packed word, bit 0 is the cancelled flag, bit 1 is the
locked flag and the remaining bits hold the record pointer:
`isCancelled()` returns exactly bit 0, `isLocked()` returns exactly bit 1,
`getInnermostRecord()` returns the word with the two low bits masked off,
and packing places cancelled at bit 0 and locked at bit 1 whenever the
record pointer has its two low bits zero. -/
theorem status_bit_layout (w : Nat) (s : ActiveTaskStatus) (ptr : Nat)
    (c l : Bool) (hw : 2 ≤ w) (hs : s.Value < 2 ^ w) (halign : ptr % 4 = 0) :
    s.isCancelled = s.Value.testBit 0
      ∧ s.isLocked = s.Value.testBit 1
      ∧ s.getInnermostRecord w = s.Value - s.Value % 4
      ∧ (ActiveTaskStatus.pack ptr c l).Value.testBit 0 = c
      ∧ (ActiveTaskStatus.pack ptr c l).Value.testBit 1 = l := by
  refine ⟨?_, ?_, ?_, ?_, ?_⟩
  · show (s.Value &&& ActiveTaskStatus.IsCancelled != 0) = s.Value.testBit 0
    rw [Bool.eq_iff_iff]
    simp [ActiveTaskStatus.IsCancelled, Nat.and_one_is_mod,
      Nat.testBit_zero]
  · show (s.Value &&& ActiveTaskStatus.IsLocked != 0) = s.Value.testBit 1
    rw [Bool.eq_iff_iff]
    simp [ActiveTaskStatus.IsLocked, land_two_eq, Nat.testBit_to_div_mod]
  · show s.Value &&& ActiveTaskStatus.RecordMask w = s.Value - s.Value % 4
    rw [RecordMask_eq, land_recordMask_eq w _ hw hs]
    omega
  · rw [pack_value_eq]
    cases c <;> cases l <;> simp [Nat.testBit_zero] <;> omega
  · rw [pack_value_eq]
    cases c <;> cases l <;> simp [Nat.testBit_to_div_mod] <;> omega

/-- Claim C4: for pointer width `w`, `sizeof(Job) = 4 * w`,
`alignof(Job) = 2 * w`, `sizeof(AsyncTask) = 12 * w`,
`alignof(AsyncTask) = 2 * w`, and `ActiveTaskStatus` occupies exactly one
pointer-sized word — the properties of the two `static_assert`s in
`Task.h` plus the spec's one-word `ActiveTaskStatus` requirement. -/
theorem layout_invariants (w : Nat) (hw : 0 < w) :
    sizeofJob w = 4 * w ∧ alignofJob w = 2 * w
      ∧ sizeofAsyncTask w = 12 * w ∧ alignofAsyncTask w = 2 * w
      ∧ sizeofActiveTaskStatus w = w :=
  ⟨sizeofJob_eq w hw, alignofJob_eq w hw, sizeofAsyncTask_eq w hw,
    alignofAsyncTask_eq w hw, sizeofActiveTaskStatus_eq w hw⟩

/-- Witness for `layout_invariants` at a 64-bit pointer width (w = 8
bytes). -/
theorem layout_invariants_witness :
    sizeofJob 8 = 32 ∧ alignofJob 8 = 16 ∧ sizeofAsyncTask 8 = 96
      ∧ alignofAsyncTask 8 = 16 ∧ sizeofActiveTaskStatus 8 = 8 :=
  layout_invariants 8 (by decide)

/-- Claim C1: a Job whose flags have the "is task" bit set runs through
the stored task continuation, invoked as
`ResumeTask(task, currentExecutor, task.ResumeContext)` and never through
the plain path; a Job whose flags do not have the bit set runs through
`RunJob(job, currentExecutor)` and never through the task path. The
returned event is a `some` of exactly one of the two event kinds, so each
equation also rules out the other path. -/
theorem run_dispatch (t : AsyncTask) (j : Job) (e : ExecutorRef)
    (ht : t.job.isAsyncTask = true) (hj : j.isAsyncTask = false) :
    (JobObject.asyncTask t).run e
        = some (RunEvent.resumedTask t.job.ResumeTask t e t.ResumeContext)
      ∧ (JobObject.plainJob j).run e
        = some (RunEvent.ranJob j.RunJob j e) := by
  constructor
  · simp [JobObject.run, JobObject.header, JobObject.asTask, ht,
      AsyncTask.run]
  · simp [JobObject.run, JobObject.header, JobObject.asTask, hj]

/-- Witness for `run_dispatch`: a concrete task (flag set) and a concrete
plain job (flag clear), run on executor 5. -/
theorem run_dispatch_witness :
    (JobObject.asyncTask
        ⟨7, ⟨(0, 0), ⟨true, false, false⟩, 11⟩, 13, ⟨0⟩, (0, 0, 0, 0)⟩).run
        ⟨5⟩
        = some (RunEvent.resumedTask 11
            ⟨7, ⟨(0, 0), ⟨true, false, false⟩, 11⟩, 13, ⟨0⟩, (0, 0, 0, 0)⟩
            ⟨5⟩ 13)
      ∧ (JobObject.plainJob ⟨(0, 0), ⟨false, false, false⟩, 21⟩).run ⟨5⟩
        = some (RunEvent.ranJob 21 ⟨(0, 0), ⟨false, false, false⟩, 21⟩
            ⟨5⟩) :=
  run_dispatch _ _ _ rfl rfl

/-- Claim C6: constructing a Job with the plain invoke overload while the
"is task" flag is set, or with the task-resume overload while the flag is
unset, hits the fatal assertion (modelled as `none`); the matched pairs
construct successfully. -/
theorem ctor_tag_assert (flags : JobFlags) (invoke : Nat) (sp : Nat × Nat) :
    (flags.isAsyncTask = true →
        Job.mkInvoke flags invoke sp = none
          ∧ Job.mkResume flags invoke sp = some ⟨sp, flags, invoke⟩)
      ∧ (flags.isAsyncTask = false →
        Job.mkResume flags invoke sp = none
          ∧ Job.mkInvoke flags invoke sp = some ⟨sp, flags, invoke⟩) := by
  constructor
  · intro h
    constructor <;> simp [Job.mkInvoke, Job.mkResume, Job.isAsyncTask, h]
  · intro h
    constructor <;> simp [Job.mkInvoke, Job.mkResume, Job.isAsyncTask, h]

/-- Witness for `ctor_tag_assert` with the flag set and with it clear. -/
theorem ctor_tag_assert_witness :
    (Job.mkInvoke ⟨true, false, false⟩ 3 (1, 2) = none
        ∧ Job.mkResume ⟨true, false, false⟩ 3 (1, 2)
            = some ⟨(1, 2), ⟨true, false, false⟩, 3⟩)
      ∧ (Job.mkResume ⟨false, false, false⟩ 3 (1, 2) = none
        ∧ Job.mkInvoke ⟨false, false, false⟩ 3 (1, 2)
            = some ⟨(1, 2), ⟨false, false, false⟩, 3⟩) :=
  ⟨(ctor_tag_assert ⟨true, false, false⟩ 3 (1, 2)).1 rfl,
    (ctor_tag_assert ⟨false, false, false⟩ 3 (1, 2)).2 rfl⟩

/-- Claim C7: `hasChildFragment()` returns exactly the "is child task"
flag; with the flag set, `childFragment()` returns the task's address plus
`sizeof(AsyncTask)` (= 12 pointer widths); with it unset the call hits the
fatal assertion (modelled as `none`). -/
theorem child_fragment_contract (w : Nat) (t : AsyncTask) (addr : Nat)
    (hw : 0 < w) :
    t.hasChildFragment = t.job.Flags.task_isChildTask
      ∧ (t.hasChildFragment = true →
          t.childFragment w addr = some (addr + 12 * w))
      ∧ (t.hasChildFragment = false → t.childFragment w addr = none) := by
  refine ⟨rfl, ?_, ?_⟩
  · intro h
    simp [AsyncTask.childFragment, h, sizeofAsyncTask_eq w hw]
  · intro h
    simp [AsyncTask.childFragment, h]

/-- Witness for `child_fragment_contract`: a child task at address 0x100
with w = 8 has its fragment at 0x100 + 96. -/
theorem child_fragment_contract_witness :
    (AsyncTask.hasChildFragment
        ⟨7, ⟨(0, 0), ⟨true, true, false⟩, 11⟩, 13, ⟨0⟩, (0, 0, 0, 0)⟩)
        = true
      ∧ (AsyncTask.childFragment 8
          ⟨7, ⟨(0, 0), ⟨true, true, false⟩, 11⟩, 13, ⟨0⟩, (0, 0, 0, 0)⟩
          0x100 = some (0x100 + 12 * 8)) :=
  ⟨((child_fragment_contract 8
      ⟨7, ⟨(0, 0), ⟨true, true, false⟩, 11⟩, 13, ⟨0⟩, (0, 0, 0, 0)⟩
      0x100 (by decide)).1).symm.trans rfl,
    (child_fragment_contract 8
      ⟨7, ⟨(0, 0), ⟨true, true, false⟩, 11⟩, 13, ⟨0⟩, (0, 0, 0, 0)⟩
      0x100 (by decide)).2.1 rfl⟩

/-- Claim C8: `AsyncTask::isCancelled()` returns exactly the cancelled bit
(bit 0) of the loaded `ActiveTaskStatus` snapshot. In this pure embedding
the function reads the status word once and cannot modify the task, which
is the "single relaxed load, no side effect" part of the claim. -/
theorem isCancelled_reads_cancelled_bit (t : AsyncTask) :
    t.isCancelled = t.Status.Value.testBit 0 := by
  show (t.Status.Value &&& ActiveTaskStatus.IsCancelled != 0)
      = t.Status.Value.testBit 0
  rw [Bool.eq_iff_iff]
  simp [ActiveTaskStatus.IsCancelled, Nat.and_one_is_mod, Nat.testBit_zero]

/-- Witness for `status_bit_layout` at w = 64, word value 0x2003,
ptr = 0x40, cancelled = false, locked = true. -/
theorem status_bit_layout_witness :
    (ActiveTaskStatus.mk 0x2003).isCancelled = (0x2003 : Nat).testBit 0
      ∧ (ActiveTaskStatus.mk 0x2003).isLocked = (0x2003 : Nat).testBit 1
      ∧ (ActiveTaskStatus.mk 0x2003).getInnermostRecord 64
          = 0x2003 - 0x2003 % 4
      ∧ (ActiveTaskStatus.pack 0x40 false true).Value.testBit 0 = false
      ∧ (ActiveTaskStatus.pack 0x40 false true).Value.testBit 1 = true :=
  status_bit_layout 64 (ActiveTaskStatus.mk 0x2003) 0x40 false true
    (by decide) (by decide) (by decide)

theorem recordsFrom_zero (parent : Nat → Nat) (fuel : Nat) :
    ActiveTaskStatus.recordsFrom parent 0 fuel = some [] := by
  cases fuel <;> simp [ActiveTaskStatus.recordsFrom]

/-- Claim C10: every AsyncTask built by the constructor starts with the
default all-zero status word: not cancelled, not locked, null innermost
record, empty record sequence — regardless of the metadata, flags,
continuation and initial context supplied. -/
theorem construct_initial_status (w fuel metadata run ctx : Nat)
    (flags : JobFlags) (sp : Nat × Nat) (ap : Nat × Nat × Nat × Nat)
    (parent : Nat → Nat) (t : AsyncTask)
    (h : AsyncTask.construct metadata flags run ctx sp ap = some t) :
    t.Status = ActiveTaskStatus.mk0
      ∧ t.isCancelled = false
      ∧ t.Status.isLocked = false
      ∧ t.Status.getInnermostRecord w = 0
      ∧ ActiveTaskStatus.records w parent t.Status fuel = some [] := by
  have hst : t.Status = ActiveTaskStatus.mk0 := by
    by_cases hf : flags.isAsyncTask
    · simp [AsyncTask.construct, Job.mkResume, Job.isAsyncTask, hf] at h
      rw [← h]
    · simp [AsyncTask.construct, Job.mkResume, Job.isAsyncTask, hf] at h
  have hrec : ActiveTaskStatus.mk0.getInnermostRecord w = 0 := by
    simp [ActiveTaskStatus.getInnermostRecord, ActiveTaskStatus.mk0]
  refine ⟨hst, ?_, ?_, ?_, ?_⟩
  · show t.Status.isCancelled = false
    rw [hst]
    decide
  · rw [hst]
    decide
  · rw [hst]
    exact hrec
  · show ActiveTaskStatus.recordsFrom parent
        (t.Status.getInnermostRecord w) fuel = some []
    rw [hst, hrec]
    exact recordsFrom_zero parent fuel

/-- Witness for `construct_initial_status`: a concrete construction with
metadata 1, task flag set, continuation 2, initial context 3, checked at
w = 64 with fuel 5 and the empty record heap. -/
theorem construct_initial_status_witness :
    (⟨1, ⟨(0, 0), ⟨true, false, false⟩, 2⟩, 3, ActiveTaskStatus.mk0,
        (0, 0, 0, 0)⟩ : AsyncTask).Status = ActiveTaskStatus.mk0
      ∧ (⟨1, ⟨(0, 0), ⟨true, false, false⟩, 2⟩, 3, ActiveTaskStatus.mk0,
          (0, 0, 0, 0)⟩ : AsyncTask).isCancelled = false
      ∧ (ActiveTaskStatus.mk0).isLocked = false
      ∧ (ActiveTaskStatus.mk0).getInnermostRecord 64 = 0
      ∧ ActiveTaskStatus.records 64 (fun _ => 0) ActiveTaskStatus.mk0 5
          = some [] :=
  construct_initial_status 64 5 1 2 3 ⟨true, false, false⟩ (0, 0)
    (0, 0, 0, 0) (fun _ => 0)
    ⟨1, ⟨(0, 0), ⟨true, false, false⟩, 2⟩, 3, ActiveTaskStatus.mk0,
      (0, 0, 0, 0)⟩ rfl

/-- A finite acyclic parent chain in the record heap: `RecordChain parent
p l` says that following parent links from `p` reaches null after visiting
exactly the records listed in `l`, in order. -/
inductive RecordChain (parent : Nat → Nat) : Nat → List Nat → Prop where
  | nil : RecordChain parent 0 []
  | cons {p : Nat} {l : List Nat} (hp : p ≠ 0)
      (h : RecordChain parent (parent p) l) : RecordChain parent p (p :: l)

theorem recordsFrom_of_chain (parent : Nat → Nat) (p : Nat) (l : List Nat)
    (h : RecordChain parent p l) :
    ∀ fuel, l.length ≤ fuel →
      ActiveTaskStatus.recordsFrom parent p fuel = some l := by
  induction h with
  | nil => exact fun fuel _ => recordsFrom_zero parent fuel
  | @cons p l hp hch ih =>
      intro fuel hf
      cases fuel with
      | zero => simp at hf
      | succ f =>
          rw [show ActiveTaskStatus.recordsFrom parent p (f + 1)
              = if p = 0 then some []
                else (ActiveTaskStatus.recordsFrom parent (parent p) f).map
                  (p :: ·) from rfl]
          rw [if_neg hp, ih f (by simpa using hf)]
          rfl

theorem recordChain_unique (parent : Nat → Nat) (p : Nat)
    (l1 l2 : List Nat) (h1 : RecordChain parent p l1)
    (h2 : RecordChain parent p l2) : l1 = l2 := by
  induction h1 generalizing l2 with
  | nil =>
      cases h2 with
      | nil => rfl
      | cons hp _ => exact absurd rfl hp
  | @cons p l hp hch ih =>
      cases h2 with
      | nil => exact absurd rfl hp
      | cons hp2 hch2 => rw [ih _ hch2]

theorem recordChain_drop (parent : Nat → Nat) (p : Nat) (l : List Nat)
    (h : RecordChain parent p l) :
    ∀ i : Fin l.length, RecordChain parent (l.get i) (l.drop i) := by
  induction h with
  | nil => exact fun i => absurd i.2 (by simp)
  | @cons p l hp hch ih =>
      intro i
      match i with
      | ⟨0, _⟩ => exact RecordChain.cons hp hch
      | ⟨j + 1, hj⟩ => exact ih ⟨j, by simpa using hj⟩

theorem recordChain_nodup (parent : Nat → Nat) (p : Nat) (l : List Nat)
    (h : RecordChain parent p l) : l.Nodup := by
  rw [List.nodup_iff_injective_get]
  intro i j hij
  have hi := recordChain_drop parent p l h i
  have hj := recordChain_drop parent p l h j
  rw [hij] at hi
  have hdrop := recordChain_unique parent (l.get j) _ _ hi hj
  have hlen : l.length - i.1 = l.length - j.1 := by
    have hlen2 := congrArg List.length hdrop
    simpa using hlen2
  have hi2 := i.isLt
  have hj2 := j.isLt
  exact Fin.ext (by omega)

/-- Claim C9: for every ActiveTaskStatus whose innermost record heads a
finite acyclic chain of N records linked by parent pointers and ending at
null, the records() sequence terminates within N steps and visits exactly
those N records, each exactly once, innermost first; and the traversal is
restartable: every run with sufficient fuel returns the same list. -/
theorem records_traversal (w : Nat) (parent : Nat → Nat)
    (s : ActiveTaskStatus) (l : List Nat)
    (h : RecordChain parent (s.getInnermostRecord w) l) :
    (∀ fuel, l.length ≤ fuel →
        ActiveTaskStatus.records w parent s fuel = some l)
      ∧ l.Nodup :=
  ⟨fun fuel hf => recordsFrom_of_chain parent _ l h fuel hf,
    recordChain_nodup parent _ l h⟩

/-- Witness for `records_traversal`: the status word 8 heads the two-record
chain 8 → 16 → null in a concrete record heap; the traversal with fuel 2
returns exactly [8, 16]. -/
theorem records_traversal_witness :
    ActiveTaskStatus.records 64 (fun p => if p = 8 then 16 else 0)
        (ActiveTaskStatus.mk 8) 2 = some [8, 16]
      ∧ ([8, 16] : List Nat).Nodup := by
  have h8 : (ActiveTaskStatus.mk 8).getInnermostRecord 64 = 8 := by decide
  have hch : RecordChain (fun p => if p = 8 then 16 else 0)
      ((ActiveTaskStatus.mk 8).getInnermostRecord 64) [8, 16] := by
    rw [h8]
    refine RecordChain.cons (by decide) ?_
    show RecordChain (fun p => if p = 8 then 16 else 0) 16 [16]
    refine RecordChain.cons (by decide) ?_
    show RecordChain (fun p => if p = 8 then 16 else 0) 0 []
    exact RecordChain.nil
  have hmain := records_traversal 64 (fun p => if p = 8 then 16 else 0)
    (ActiveTaskStatus.mk 8) [8, 16] hch
  exact ⟨hmain.1 2 (by decide), hmain.2⟩

theorem cancelCommit_eq (v : Nat) : cancelCommit v = 2 * (v / 2) + 1 := by
  show v ||| 1 = _
  exact lor_one_eq v

theorem unlockCommit_mod_two (w x : Nat) (hw : 2 ≤ w) :
    unlockCommit w x % 2 = x % 2 := by
  have hpow := two_pow_eq_four_mul w hw
  have h2 : ActiveTaskStatus.IsLocked = 2 := rfl
  unfold unlockCommit
  rw [h2]
  have hm : (2 ^ w - 1 - 2) % 2 = 1 := by
    rw [hpow]
    have hm1 : 0 < 2 ^ (w - 2) := Nat.two_pow_pos (w - 2)
    omega
  by_cases hx : x % 2 = 1
  · have h1 : (x &&& (2 ^ w - 1 - 2)) % 2 = 1 :=
      Nat.and_mod_two_eq_one.mpr ⟨hx, hm⟩
    omega
  · have h1 : ¬(x &&& (2 ^ w - 1 - 2)) % 2 = 1 := fun hcon =>
      hx (Nat.and_mod_two_eq_one.mp hcon).1
    omega

theorem unlockCommit_div_two_mod_two (w x : Nat) (hw : 2 ≤ w) :
    unlockCommit w x / 2 % 2 = 0 := by
  have hpow := two_pow_eq_four_mul w hw
  have h2 : ActiveTaskStatus.IsLocked = 2 := rfl
  unfold unlockCommit
  rw [h2, Nat.and_div_two]
  have hm : ¬((2 ^ w - 1 - 2) / 2) % 2 = 1 := by
    rw [hpow]
    have hm1 : 0 < 2 ^ (w - 2) := Nat.two_pow_pos (w - 2)
    omega
  have h1 : ¬(x / 2 &&& (2 ^ w - 1 - 2) / 2) % 2 = 1 := fun hcon =>
    hm (Nat.and_mod_two_eq_one.mp hcon).2
  omega

/-- Claim C3 (protocol modelled from the spec, since the mutating code
lives outside this source tree): if the lock bit of the status word is
held and a concurrent canceller commits its compare-and-swap setting the
cancelled bit, then after the lock holder commits its unlocking
compare-and-swap the cancelled bit of the final word is set and the lock
bit is clear — in either linearization order of the two commits, so the
unlock never loses a concurrently raised cancellation. -/
theorem unlock_preserves_cancellation (w v : Nat) (hw : 2 ≤ w)
    (hv : v < 2 ^ w)
    (hlock : ActiveTaskStatus.isLocked ⟨v⟩ = true) :
    (ActiveTaskStatus.isCancelled ⟨unlockCommit w (cancelCommit v)⟩ = true
        ∧ ActiveTaskStatus.isLocked ⟨unlockCommit w (cancelCommit v)⟩
            = false)
      ∧ (ActiveTaskStatus.isCancelled ⟨cancelCommit (unlockCommit w v)⟩
            = true
        ∧ ActiveTaskStatus.isLocked ⟨cancelCommit (unlockCommit w v)⟩
            = false) := by
  have hc1 : ActiveTaskStatus.IsCancelled = 1 := rfl
  have hl2 : ActiveTaskStatus.IsLocked = 2 := rfl
  refine ⟨⟨?_, ?_⟩, ⟨?_, ?_⟩⟩
  · show (unlockCommit w (cancelCommit v)
        &&& ActiveTaskStatus.IsCancelled != 0) = true
    rw [hc1, Nat.and_one_is_mod, Bool.eq_iff_iff]
    have h1 := unlockCommit_mod_two w (cancelCommit v) hw
    have h2 := cancelCommit_eq v
    simp
    omega
  · show (unlockCommit w (cancelCommit v)
        &&& ActiveTaskStatus.IsLocked != 0) = false
    rw [hl2, land_two_eq, Bool.eq_iff_iff]
    have h1 := unlockCommit_div_two_mod_two w (cancelCommit v) hw
    simp
    omega
  · show (cancelCommit (unlockCommit w v)
        &&& ActiveTaskStatus.IsCancelled != 0) = true
    rw [hc1, Nat.and_one_is_mod, Bool.eq_iff_iff]
    have h1 := cancelCommit_eq (unlockCommit w v)
    simp
    omega
  · show (cancelCommit (unlockCommit w v)
        &&& ActiveTaskStatus.IsLocked != 0) = false
    rw [hl2, land_two_eq, Bool.eq_iff_iff]
    have h1 := cancelCommit_eq (unlockCommit w v)
    have h2 := unlockCommit_div_two_mod_two w v hw
    simp
    omega

/-- Witness for `unlock_preserves_cancellation` at w = 64 with the word
6 (locked, one record-pointer bit set, not yet cancelled). -/
theorem unlock_preserves_cancellation_witness :
    (ActiveTaskStatus.isCancelled ⟨unlockCommit 64 (cancelCommit 6)⟩ = true
        ∧ ActiveTaskStatus.isLocked ⟨unlockCommit 64 (cancelCommit 6)⟩
            = false)
      ∧ (ActiveTaskStatus.isCancelled ⟨cancelCommit (unlockCommit 64 6)⟩
            = true
        ∧ ActiveTaskStatus.isLocked ⟨cancelCommit (unlockCommit 64 6)⟩
            = false) :=
  unlock_preserves_cancellation 64 6 (by decide) (by decide) (by decide)

end SwiftABI
